import Mathlib

/-
Shallow embedding of the iNetScan host-inventory aggregation engine.

Sources embedded here:
  - scanning.py   (ScanThread.run: discovery-line / MAC-line processing, vendor
                   and model resolution from OUI / Apple-model tables)
  - threads.py    (HostPortThread.run: open-port parsing, de-duplication,
                   sorting, service-name lookup)
  - mdns.py       (MDNSWorker.run: TXT-property byte decoding with UTF-8,
                   errors ignored)
  - inetscan-v0.4.6.py (ScannerWindow.populate, _on_mdns_done,
                   on_host_ports_multi, start_host_port_scan,
                   on_thread_finished, the two mDNS launch sites)

External effects (subprocess output, reverse DNS, the manuf OUI database,
the nmap-services table, the system services database consulted by
socket.getservbyport) are passed in explicitly as function or table
parameters; Python dicts are modelled as association lists or as
functions into Option, Python strings as Lean strings (the data domain
of this program is ASCII, where Python str.upper agrees with
String.toUpper character-wise).
-/

namespace INetScan

/-- One entry of a host's ports list: the dict produced at
threads.py line 130, with keys port and name. -/
structure PortEntry where
  port : Nat
  name : String
deriving DecidableEq

/-- A host record, the dict built at scanning.py lines 98-105.  Keys the
Python dict may lack (the mdns fields) are read in the source only through
dict.get with these same defaults, so defaulted total fields are a faithful
model. -/
structure Host where
  ip : String
  hostname : String := ""
  mac : String := ""
  ports : List PortEntry := []
  vendor : String := ""
  model : String := ""
  mdns_name : String := ""
  mdns_services : List String := []
  mdns_props : List (String × String) := []
deriving DecidableEq

/-- Python dict lookup d.get(k), for a dict modelled as an association
list: first binding of the key, if any. -/
def lookupProp (props : List (String × String)) (k : String) : Option String :=
  (props.find? (fun p => p.1 == k)).map (fun p => p.2)

/-- Python d[k] = v on an association-list dict: replace the binding if
the key is present, append it otherwise. -/
def dictSet (d : List (String × String)) (k v : String) : List (String × String) :=
  match d with
  | [] => [(k, v)]
  | (k0, v0) :: t => if k0 = k then (k0, v) :: t else (k0, v0) :: dictSet t k v

/-- Python whitespace test for the regex class backslash-s (the characters
that occur in this program's line-based data). -/
def isSpaceChar (c : Char) : Bool :=
  c == ' ' || c == '\t' || c == '\n' || c == '\r' || c == '\x0b' || c == '\x0c'

/-- Python str.strip(): remove leading and trailing whitespace. -/
def pyStrip (s : String) : String :=
  String.mk (((s.data.dropWhile isSpaceChar).reverse.dropWhile isSpaceChar).reverse)

/-- Does the second list start with the first? (used for anchored regex
literals). -/
def startsWithChars : List Char → List Char → Bool
  | [], _ => true
  | _ :: _, [] => false
  | a :: as, b :: bs => a == b && startsWithChars as bs

/-- The literal part of the discovery regex at scanning.py line 86. -/
def discoveryNeedle : List Char := "Nmap scan report for ".data

/-- The character class of the optional ip group of the discovery regex:
digits and dots. -/
def isIpChar (c : Char) : Bool := c.isDigit || c == '.'

/-- The optional group of the discovery regex at scanning.py lines 86-87:
a space, an opening parenthesis, one or more digits-or-dots, a closing
parenthesis. -/
def discoveryIpGroup : List Char → Option (List Char)
  | ' ' :: '(' :: rest =>
      let ip := rest.takeWhile isIpChar
      if ip.isEmpty then none
      else
        match rest.drop ip.length with
        | ')' :: _ => some ip
        | _ => none
  | _ => none

/-- The discovery-line parser: re.match of scanning.py lines 85-91 plus the
strip applied to the chosen ip.  Returns (raw host group, canonical ip):
the host group is a maximal nonempty run of non-space characters, and the
optional parenthesized group, when it matches, supplies the ip; otherwise
the raw host is the ip.  re.match anchors at the start of the line and
allows trailing text. -/
def parse_discovery_line (line : String) : Option (String × String) :=
  let cs := line.data
  if startsWithChars discoveryNeedle cs then
    let rest := cs.drop discoveryNeedle.length
    let host := rest.takeWhile (fun c => c != ' ')
    if host.isEmpty then none
    else
      let raw := String.mk host
      let ip :=
        match discoveryIpGroup (rest.drop host.length) with
        | some ip => String.mk ip
        | none => raw
      some (raw, pyStrip ip)
  else none

/-- The literal part of the MAC regex at scanning.py line 111. -/
def macNeedle : List Char := "MAC Address:".data

/-- The MAC character class of scanning.py line 111: digits, uppercase
hex letters, colon. -/
def isMacChar (c : Char) : Bool :=
  (48 ≤ c.toNat && c.toNat ≤ 57) || (65 ≤ c.toNat && c.toNat ≤ 70) || c == ':'

/-- One attempted match of the MAC regex at a fixed position: the literal,
optional whitespace, a nonempty MAC run, then the optional parenthesized
vendor group (whitespace, an opening parenthesis, one or more
non-closing-parenthesis characters, a closing parenthesis). -/
def macMatchAt (cs : List Char) : Option (List Char × Option (List Char)) :=
  if startsWithChars macNeedle cs then
    let r1 := (cs.drop macNeedle.length).dropWhile isSpaceChar
    let mac := r1.takeWhile isMacChar
    if mac.isEmpty then none
    else
      let r2 := (r1.drop mac.length).dropWhile isSpaceChar
      let vendor :=
        match r2 with
        | '(' :: more =>
            let v := more.takeWhile (fun c => c != ')')
            if v.isEmpty then none
            else
              match more.drop v.length with
              | ')' :: _ => some v
              | _ => none
        | _ => none
      some (mac, vendor)
  else none

/-- re.search scanning: try the MAC pattern at every position, leftmost
match wins. -/
def macSearch : List Char → Option (String × Option String)
  | [] => none
  | c :: t =>
    match macMatchAt (c :: t) with
    | some (mac, v) => some (String.mk mac, v.map String.mk)
    | none => macSearch t

/-- The MAC-line parser: re.search of scanning.py lines 110-113.  Returns
the MAC string and the optional inline vendor hint. -/
def parse_mac_line (line : String) : Option (String × Option String) :=
  macSearch line.data

/-- mac.replace(colon, empty).upper() sliced to six characters: the OUI
key used at scanning.py line 122. -/
def macOui (mac : String) : String :=
  String.mk (((mac.data.filter (fun c => c != ':')).map Char.toUpper).take 6)

/-- Vendor resolution of scanning.py lines 119-129, with the external
lookups passed in: macLookup is manuf's get_manufacturer (the constant
empty function when manuf is absent), extraOui the oui_extra overrides
table, apple the apple_models table keyed by OUI, props the host's
mdns_props dict.  Python or-chains treat the empty string as false. -/
def resolveVendor (macLookup extraOui : String → String)
    (apple : List (String × String)) (props : List (String × String))
    (mac : String) (inline : Option String) : String :=
  let v0 :=
    match inline with
    | some v => if v = "" then macLookup mac else v
    | none => macLookup mac
  let v1 := if v0 = "" then extraOui (macOui mac) else v0
  let v2 := if v1 = "" then (lookupProp props "vn").getD "" else v1
  if v2 = "" ∧ (lookupProp apple (macOui mac)).isSome then "Apple" else v2

/-- The MAC-line update of the most recently discovered host,
scanning.py lines 115-134: store the MAC, resolve the vendor, then set
the model from the mdns model hint or the Apple-model table. -/
def updateMacHost (macLookup extraOui : String → String)
    (apple : List (String × String)) (h : Host)
    (mac : String) (inline : Option String) : Host :=
  let vendor := resolveVendor macLookup extraOui apple h.mdns_props mac inline
  let m0 := (lookupProp h.mdns_props "model").getD ""
  let m1 :=
    match lookupProp apple (macOui mac) with
    | some am => if m0 = "" then am else m0
    | none => m0
  { h with mac := mac, vendor := vendor, model := m1 }

/-- The mutable state of ScanThread.run: the growing hosts list and the
set of ips already reported (scanning.py lines 62-63). -/
structure ScanState where
  hosts : List Host := []
  seen_ips : List String := []
deriving DecidableEq

/-- The events ScanThread emits while streaming (scanning.py lines
107-108 and 135). -/
inductive ScanEvent where
  | result (hosts : List Host)
  | discoveryUpdate (msg : String)
deriving DecidableEq

/-- Processing of one stdout line by ScanThread.run (scanning.py lines
84-135): first the discovery match (a new ip appends a fresh record and
emits events; a seen ip is skipped), then the MAC match, which updates the
most recently discovered host, guarded by the hosts list being nonempty.
rdns is socket.gethostbyaddr with failures already mapped to the empty
string. -/
def scanStep (rdns macLookup extraOui : String → String)
    (apple : List (String × String))
    (st : ScanState) (line : String) : ScanState × List ScanEvent :=
  let step1 : ScanState × List ScanEvent :=
    match parse_discovery_line line with
    | some (_raw, ip) =>
      if ip ∈ st.seen_ips then (st, [])
      else
        let h : Host := { ip := ip, hostname := rdns ip }
        let hosts2 := st.hosts ++ [h]
        ({ hosts := hosts2, seen_ips := ip :: st.seen_ips },
         [ScanEvent.result hosts2,
          ScanEvent.discoveryUpdate ("Discovered " ++ ip ++ " (" ++ rdns ip ++ ")")])
    | none => (st, [])
  match parse_mac_line line with
  | some (mac, inline) =>
    match step1.1.hosts.getLast? with
    | some lastH =>
      let h2 := updateMacHost macLookup extraOui apple lastH mac inline
      let hosts3 := step1.1.hosts.dropLast ++ [h2]
      ({ hosts := hosts3, seen_ips := step1.1.seen_ips },
       step1.2 ++ [ScanEvent.result hosts3])
    | none => step1
  | none => step1

/-- ScannerWindow.populate (inetscan-v0.4.6.py lines 1238-1251): merge a
streamed hosts snapshot into the window's table.  An empty table takes the
whole batch; otherwise only the positional tail beyond the current length
is appended. -/
def populate (hosts newHosts : List Host) : List Host :=
  match hosts with
  | [] => newHosts
  | _ => hosts ++ newHosts.drop hosts.length

/-- One value of the mapping MDNSWorker.mdns_done emits (mdns.py lines
116-122): every entry carries all three keys. -/
structure MdnsFact where
  hostname : String := ""
  services : List String := []
  mdns_props : List (String × String) := []
deriving DecidableEq

/-- Python-style or-chain over dict lookups (inetscan-v0.4.6.py lines
917-923): the first key whose value is present and nonempty wins, else the
empty string. -/
def pyOrChain (props : List (String × String)) : List String → String
  | [] => ""
  | k :: ks =>
    match lookupProp props k with
    | some v => if v = "" then pyOrChain props ks else v
    | none => pyOrChain props ks

/-- Python str.upper(), character-wise (the data domain is ASCII, where
this agrees with CPython). -/
def pyUpper (s : String) : String := String.mk (s.data.map Char.toUpper)

/-- Python str.startswith(), comparing code points. -/
def pyStartsWith (s pre : String) : Bool := startsWithChars pre.data s.data

/-- Python slicing s[n:], dropping the first n code points. -/
def pyDrop (s : String) (n : Nat) : String := String.mk (s.data.drop n)

/-- The then-branch of _on_mdns_done for a host whose ip is in the result
mapping (inetscan-v0.4.6.py lines 911-929): set the three mdns fields from
the fact, then merge the mDNS model candidate into the model field after
stripping a leading vendor-name-plus-space (compared case-insensitively via
upper), skipping empty and placeholder candidates. -/
def applyMdnsFact (h : Host) (f : MdnsFact) : Host :=
  let props := f.mdns_props
  let mdVal0 := pyOrChain props ["model", "md", "am", "ty", "product"]
  let vp := pyUpper h.vendor ++ " "
  let mdVal := if pyStartsWith (pyUpper mdVal0) vp then pyDrop mdVal0 vp.length else mdVal0
  { h with
    mdns_name := f.hostname
    mdns_services := f.services
    mdns_props := props
    model := if mdVal ≠ "" ∧ mdVal ≠ "0" ∧ mdVal ≠ "0,1,2" then mdVal else h.model }

/-- The else-branch of _on_mdns_done (inetscan-v0.4.6.py lines 930-933):
hosts absent from the mapping get their mdns fields reset to defaults. -/
def clearMdns (h : Host) : Host :=
  { h with mdns_name := "", mdns_services := [], mdns_props := [] }

/-- Per-host case split of _on_mdns_done (inetscan-v0.4.6.py lines
908-933).  results models results.get(ip): none stands for an ip not in
the dict (the facts MDNSWorker builds are nonempty dicts carrying all
three keys, so Python truthiness of the looked-up value coincides with
presence). -/
def mergeMdnsHost (results : String → Option MdnsFact) (h : Host) : Host :=
  match results h.ip with
  | some f => applyMdnsFact h f
  | none => clearMdns h

/-- The full-resync loop of _on_mdns_done over every host in the table. -/
def onMdnsDone (results : String → Option MdnsFact) (hosts : List Host) : List Host :=
  hosts.map (mergeMdnsHost results)

/-- Insert into a strictly ascending list, keeping it strictly ascending:
duplicates are dropped. -/
def insertSorted (p : Nat) : List Nat → List Nat
  | [] => [p]
  | q :: t =>
    if p < q then p :: q :: t
    else if p = q then q :: t
    else q :: insertSorted p t

/-- Python sorted(set(l)) for a list of port numbers (threads.py line
125): the distinct elements in ascending order. -/
def pySortedSet (l : List Nat) : List Nat := l.foldr insertSorted []

/-- The result list HostPortThread.run emits (threads.py lines 117-131):
parsed ports de-duplicated and sorted ascending, each with the service
name from the system services table (socket.getservbyport, passed in as
getserv) or the empty string when the lookup fails. -/
def hostPortServices (getserv : Nat → Option String) (found : List Nat) : List PortEntry :=
  (pySortedSet found).map (fun p => { port := p, name := (getserv p).getD "" })

/-- A delivered ports-list element as received by on_host_ports_multi: the
handler accepts raw port numbers as well as already-shaped entries
(inetscan-v0.4.6.py line 1670). -/
inductive RawPort where
  | num (p : Nat)
  | entry (e : PortEntry)
deriving DecidableEq

/-- The per-element conversion of inetscan-v0.4.6.py line 1670: ints are
shaped with SERVICE_NAMES.get(p, empty), dict entries pass through. -/
def normalizePortEntry (svcNames : Nat → Option String) : RawPort → PortEntry
  | RawPort.num p => { port := p, name := (svcNames p).getD "" }
  | RawPort.entry e => e

/-- The update loop of on_host_ports_multi (inetscan-v0.4.6.py lines
1671-1674): replace the ports field of the first host whose ip matches,
then stop; no match leaves the table unchanged. -/
def setPortsFirst (hosts : List Host) (ip : String) (ports : List PortEntry) : List Host :=
  match hosts with
  | [] => []
  | h :: t => if h.ip = ip then { h with ports := ports } :: t else h :: setPortsFirst t ip ports

/-- ScannerWindow.on_host_ports_multi (inetscan-v0.4.6.py lines
1664-1674), restricted to its effect on the hosts table. -/
def on_host_ports_multi (svcNames : Nat → Option String)
    (hosts : List Host) (ip : String) (raw : List RawPort) : List Host :=
  setPortsFirst hosts ip (raw.map (normalizePortEntry svcNames))

/-- The admission gate of start_host_port_scan (inetscan-v0.4.6.py lines
1617-1633) on the ip-to-thread map (modelled as a function into Option of
a task id): an ip already in flight returns unchanged without launching;
otherwise the ip is entered and a task launched.  The boolean reports
whether a subprocess thread was started. -/
def start_host_port_scan (threads : String → Option Nat) (ip : String) (tid : Nat) :
    (String → Option Nat) × Bool :=
  if (threads ip).isSome then (threads, false)
  else ((fun k => if k = ip then some tid else threads k), true)

/-- ScannerWindow.on_thread_finished (inetscan-v0.4.6.py lines
1645-1655) on the ip-to-thread map: pop the finished thread's ip when it
is a nonempty string present in the map.  The outcome of the run
(HostPortThread emits result on success and error on failure, threads.py
lines 113-133) is not consulted: Qt fires finished in either case. -/
def on_thread_finished (_outcome : Except String (List PortEntry))
    (threads : String → Option Nat) (ip : String) : String → Option Nat :=
  if ip ≠ "" ∧ (threads ip).isSome then (fun k => if k = ip then none else threads k)
  else threads

/-- The mDNS timeout of the quick-scan path: _on_discovery_finished
constructs MDNSWorker(timeout=2.0) (inetscan-v0.4.6.py line 891). -/
def quick_scan_mdns_timeout : ℚ := 2

/-- The mDNS timeout chosen by _start_mdns (inetscan-v0.4.6.py line 870):
2.0 in advanced mode, 1.0 otherwise. -/
def start_mdns_timeout (advancedMode : Bool) : ℚ := if advancedMode then 2 else 1

/-- The mDNS timeout of the deep-scan path: _start_mdns is reached only
after the advanced passes (line 840), with advanced_mode set to True at
line 783. -/
def deep_scan_mdns_timeout : ℚ := start_mdns_timeout true

/-- CPython's UTF-8 decoder with errors ignored, as invoked at
mdns.py lines 112-113: bytes forming a valid (non-overlong,
non-surrogate, in-range) sequence decode to the corresponding scalar;
a byte at which decoding fails is dropped and decoding resumes at the
next byte.  Dropping one byte at a time yields the same output as
CPython's maximal-subpart error ranges because continuation bytes can
never begin a valid sequence. -/
def utf8Step (b : Nat) (rest : List Nat) : Option Char × Nat :=
  if b < 128 then (some (Char.ofNat b), 0)
  else if 194 ≤ b ∧ b ≤ 223 then
    match rest with
    | b2 :: _ =>
      if 128 ≤ b2 ∧ b2 ≤ 191 then (some (Char.ofNat ((b - 192) * 64 + (b2 - 128))), 1)
      else (none, 0)
    | [] => (none, 0)
  else if 224 ≤ b ∧ b ≤ 239 then
    match rest with
    | b2 :: b3 :: _ =>
      if ((if b = 224 then 160 ≤ b2 ∧ b2 ≤ 191
           else if b = 237 then 128 ≤ b2 ∧ b2 ≤ 159
           else 128 ≤ b2 ∧ b2 ≤ 191) ∧ 128 ≤ b3 ∧ b3 ≤ 191) then
        (some (Char.ofNat ((b - 224) * 4096 + (b2 - 128) * 64 + (b3 - 128))), 2)
      else (none, 0)
    | _ => (none, 0)
  else if 240 ≤ b ∧ b ≤ 244 then
    match rest with
    | b2 :: b3 :: b4 :: _ =>
      if ((if b = 240 then 144 ≤ b2 ∧ b2 ≤ 191
           else if b = 244 then 128 ≤ b2 ∧ b2 ≤ 143
           else 128 ≤ b2 ∧ b2 ≤ 191) ∧ 128 ≤ b3 ∧ b3 ≤ 191 ∧ 128 ≤ b4 ∧ b4 ≤ 191) then
        (some (Char.ofNat ((b - 240) * 262144 + (b2 - 128) * 4096 + (b3 - 128) * 64 + (b4 - 128))), 3)
      else (none, 0)
    | _ => (none, 0)
  else (none, 0)

/-- The decoding loop: a successful step consumes the lead byte plus the
reported continuation bytes and emits the scalar; a failed step drops the
lead byte only and resumes.  The fuel argument bounds the number of steps
structurally; every step consumes at least one byte. -/
def utf8DecodeLoop : Nat → List Nat → List Char
  | 0, _ => []
  | _ + 1, [] => []
  | fuel + 1, b :: rest =>
    match utf8Step b rest with
    | (some c, k) => c :: utf8DecodeLoop fuel (rest.drop k)
    | (none, k) => utf8DecodeLoop fuel (rest.drop k)

/-- CPython bytes.decode with UTF-8 and errors ignored: run the loop with
enough fuel for every byte. -/
def utf8DecodeIgnore (bs : List Nat) : List Char := utf8DecodeLoop bs.length bs

/-- One lowercase hex digit. -/
def hexDigit (n : Nat) : Char := if n < 10 then Char.ofNat (48 + n) else Char.ofNat (87 + n)

/-- Python bytes.hex(): two lowercase hex digits per byte (bytes are below
256). -/
def bytesHex (bs : List Nat) : String :=
  String.mk (bs.foldr (fun b acc => hexDigit (b / 16) :: hexDigit (b % 16) :: acc) [])

/-- The hex-string fallback representation the spec describes for
undecodable TXT bytes, as produced by safe_decode in bonjour_gui.py lines
294-299 (the separate Bonjour browser window): 0x followed by the hex of
the bytes. -/
def hexFallback (bs : List Nat) : String := "0x" ++ bytesHex bs

/-- The TXT-property collection loop of MDNSWorker.run (mdns.py lines
108-114): items whose key or value is None are skipped, the rest are
decoded with UTF-8 errors ignored and assigned into the props dict in
order (later assignments to the same decoded key overwrite). -/
def buildProps : List (Option (List Nat) × Option (List Nat)) →
    List (String × String) → List (String × String)
  | [], props => props
  | (some kb, some vb) :: t, props =>
      buildProps t
        (dictSet props (String.mk (utf8DecodeIgnore kb)) (String.mk (utf8DecodeIgnore vb)))
  | (none, _) :: t, props => buildProps t props
  | (some _, none) :: t, props => buildProps t props

/-- Specification-side formulation of a fixed priority order: the first
nonempty string in the list, or the empty string. -/
def firstNonEmptyStr : List String → String
  | [] => ""
  | s :: rest => if s = "" then firstNonEmptyStr rest else s

theorem pyOrChain_eq_firstNonEmpty (props : List (String × String)) (ks : List String) :
    pyOrChain props ks = firstNonEmptyStr (ks.map (fun k => (lookupProp props k).getD "")) := by
  induction ks with
  | nil => rfl
  | cons k ks ih =>
    simp only [pyOrChain, List.map_cons, firstNonEmptyStr]
    cases h : lookupProp props k with
    | none => simp [ih]
    | some v =>
      by_cases hv : v = "" <;> simp [hv, ih]

theorem mem_insertSorted {p a : Nat} {l : List Nat} :
    a ∈ insertSorted p l ↔ a = p ∨ a ∈ l := by
  induction l with
  | nil => simp [insertSorted]
  | cons q t ih =>
    by_cases h1 : p < q
    · simp only [insertSorted, if_pos h1, List.mem_cons]
    · by_cases h2 : p = q
      · simp only [insertSorted, if_neg h1, if_pos h2, List.mem_cons]
        subst h2
        tauto
      · simp only [insertSorted, if_neg h1, if_neg h2, List.mem_cons, ih]
        tauto

theorem sorted_insertSorted {p : Nat} {l : List Nat} (h : l.Sorted (· < ·)) :
    (insertSorted p l).Sorted (· < ·) := by
  induction l with
  | nil => simp [insertSorted]
  | cons q t ih =>
    rw [List.sorted_cons] at h
    obtain ⟨hq, ht⟩ := h
    by_cases h1 : p < q
    · simp only [insertSorted, if_pos h1, List.sorted_cons, List.mem_cons]
      refine ⟨?_, hq, ht⟩
      rintro b (rfl | hb)
      · exact h1
      · exact h1.trans (hq b hb)
    · by_cases h2 : p = q
      · simp only [insertSorted, if_neg h1, if_pos h2, List.sorted_cons]
        exact ⟨hq, ht⟩
      · have hqp : q < p := lt_of_le_of_ne (not_lt.mp h1) (Ne.symm h2)
        simp only [insertSorted, if_neg h1, if_neg h2, List.sorted_cons]
        refine ⟨?_, ih ht⟩
        intro b hb
        rcases mem_insertSorted.mp hb with rfl | hbt
        · exact hqp
        · exact hq b hbt

theorem sorted_pySortedSet (l : List Nat) : (pySortedSet l).Sorted (· < ·) := by
  induction l with
  | nil => simp [pySortedSet]
  | cons a t ih => exact sorted_insertSorted ih

theorem mem_pySortedSet {a : Nat} {l : List Nat} : a ∈ pySortedSet l ↔ a ∈ l := by
  induction l with
  | nil => simp [pySortedSet]
  | cons b t ih =>
    show a ∈ insertSorted b (pySortedSet t) ↔ _
    rw [mem_insertSorted, ih]
    simp

theorem map_port_hostPortServices (getserv : Nat → Option String) (found : List Nat) :
    (hostPortServices getserv found).map PortEntry.port = pySortedSet found := by
  have hcomp : (PortEntry.port ∘ fun p => ({ port := p, name := (getserv p).getD "" } : PortEntry)) = id := rfl
  simp [hostPortServices, List.map_map, hcomp]

theorem find_setPortsFirst (hosts : List Host) (ip : String) (ports : List PortEntry) :
    (setPortsFirst hosts ip ports).find? (fun h => h.ip == ip) =
      (hosts.find? (fun h => h.ip == ip)).map (fun h => { h with ports := ports }) := by
  induction hosts with
  | nil => rfl
  | cons h t ih =>
    by_cases hc : h.ip = ip
    · have hb : (h.ip == ip) = true := beq_iff_eq.mpr hc
      simp [setPortsFirst, hc, List.find?_cons, hb]
    · have hb : (h.ip == ip) = false := beq_eq_false_iff_ne.mpr hc
      simp [setPortsFirst, hc, List.find?_cons, hb, ih]

theorem setPortsFirst_absent (hosts : List Host) (ip : String) (ports : List PortEntry)
    (habs : ∀ h ∈ hosts, h.ip ≠ ip) : setPortsFirst hosts ip ports = hosts := by
  induction hosts with
  | nil => rfl
  | cons h t ih =>
    have hh : h.ip ≠ ip := habs h (List.mem_cons_self h t)
    simp only [setPortsFirst, if_neg hh]
    rw [ih (fun x hx => habs x (List.mem_cons_of_mem h hx))]

theorem zip_map_snd {α β : Type} (f : α → β) (l : List α) :
    ∀ pr ∈ l.zip (l.map f), pr.2 = f pr.1 := by
  induction l with
  | nil => simp
  | cons a t ih =>
    intro pr hpr
    simp only [List.map_cons, List.zip_cons_cons, List.mem_cons] at hpr
    rcases hpr with rfl | hpr
    · rfl
    · exact ih pr hpr

theorem lookup_dictSet_self (d : List (String × String)) (k v : String) :
    lookupProp (dictSet d k v) k = some v := by
  induction d with
  | nil => simp [dictSet, lookupProp]
  | cons p t ih =>
    obtain ⟨k0, v0⟩ := p
    by_cases hc : k0 = k
    · simp [dictSet, hc, lookupProp]
    · have hb : (k0 == k) = false := beq_eq_false_iff_ne.mpr hc
      simp only [dictSet, if_neg hc, lookupProp, List.find?_cons, hb]
      exact ih

theorem isSome_lookup_dictSet (d : List (String × String)) (k v k2 : String) :
    (lookupProp (dictSet d k v) k2).isSome ↔ k2 = k ∨ (lookupProp d k2).isSome := by
  induction d with
  | nil =>
    by_cases hc : k = k2
    · simp [dictSet, lookupProp, hc.symm]
    · have hb : (k == k2) = false := beq_eq_false_iff_ne.mpr hc
      simp [dictSet, lookupProp, hb, Ne.symm hc]
  | cons p t ih =>
    obtain ⟨k0, v0⟩ := p
    by_cases hc : k0 = k
    · subst hc
      by_cases hc2 : k0 = k2
      · subst hc2
        simp [dictSet, lookupProp]
      · have hb : (k0 == k2) = false := beq_eq_false_iff_ne.mpr hc2
        have hd : dictSet ((k0, v0) :: t) k0 v = (k0, v) :: t := by simp [dictSet]
        rw [hd]
        simp only [lookupProp, List.find?_cons, hb]
        constructor
        · intro h
          exact Or.inr h
        · rintro (rfl | h)
          · exact absurd rfl hc2
          · exact h
    · by_cases hc2 : k0 = k2
      · simp [dictSet, hc, lookupProp, List.find?_cons, beq_iff_eq.mpr hc2]
      · have hb : (k0 == k2) = false := beq_eq_false_iff_ne.mpr hc2
        simp only [dictSet, if_neg hc, lookupProp, List.find?_cons, hb]
        exact ih

theorem buildProps_preserves (items : List (Option (List Nat) × Option (List Nat)))
    (acc : List (String × String)) (k : String) (h : (lookupProp acc k).isSome) :
    (lookupProp (buildProps items acc) k).isSome := by
  induction items generalizing acc with
  | nil => exact h
  | cons it t ih =>
    obtain ⟨ko, vo⟩ := it
    cases ko with
    | none => exact ih acc h
    | some kb =>
      cases vo with
      | none => exact ih acc h
      | some vb =>
        refine ih _ ?_
        rw [isSome_lookup_dictSet]
        exact Or.inr h

theorem buildProps_mem_isSome (items : List (Option (List Nat) × Option (List Nat)))
    (kb vb : List Nat) (acc : List (String × String))
    (hmem : (some kb, some vb) ∈ items) :
    (lookupProp (buildProps items acc) (String.mk (utf8DecodeIgnore kb))).isSome := by
  induction items generalizing acc with
  | nil => cases hmem
  | cons it t ih =>
    rcases List.mem_cons.mp hmem with rfl | hmem2
    · refine buildProps_preserves t _ _ ?_
      rw [lookup_dictSet_self]
      rfl
    · obtain ⟨ko, vo⟩ := it
      cases ko with
      | none => exact ih _ hmem2
      | some kb2 =>
        cases vo with
        | none => exact ih _ hmem2
        | some vb2 => exact ih _ hmem2

/-- The record discovered by deep-scan pass 1 (ARP pass): host at ip
192.168.1.5. -/
def passOneHost : Host := { ip := "192.168.1.5" }

/-- Deep-scan pass 2 (ICMP pass) discovers 192.168.1.6 first. -/
def passTwoHostNew : Host := { ip := "192.168.1.6" }

/-- Deep-scan pass 2 then rediscovers 192.168.1.5 (the thread of the new
pass starts with empty hosts and seen_ips, so the ip is reported again). -/
def passTwoHostDup : Host := { ip := "192.168.1.5", hostname := "printer.local" }

/-- The window table after the three populate calls of the scenario:
pass 1 emits the snapshot with 192.168.1.5; pass 2 emits first the
snapshot with 192.168.1.6 alone, then the snapshot with both its hosts. -/
def deepScanMergedTable : List Host :=
  populate (populate (populate [] [passOneHost]) [passTwoHostNew])
    [passTwoHostNew, passTwoHostDup]

/-- C1: the claim says a second discovery report of an ip already in the
table, merged via populate in a later deep-scan pass, updates the existing
record and never appends a duplicate with the same ip key.  The code
violates this: populate merges positionally (new_hosts sliced from the
current table length), so when a later pass reports hosts in a different
order, the record for 192.168.1.5 is appended a second time — the table
ends with two records whose ip is 192.168.1.5 — and the genuinely new host
192.168.1.6 is never added.  This contradicts the program's own data
model, in which ip is the unique lookup key (show_details and
on_host_ports_multi select by first ip match). -/
theorem C1_populate_appends_duplicate_ip :
    deepScanMergedTable.map Host.ip = ["192.168.1.5", "192.168.1.5"] ∧
    "192.168.1.6" ∉ deepScanMergedTable.map Host.ip ∧
    ¬ (deepScanMergedTable.map Host.ip).Nodup := by
  decide

/-- C2 counterexample: a MAC whose OUI is in the Apple-model table, with an
mDNS vn hint present, no inline vendor hint, and both OUI lookups empty.
The claim predicts vendor Apple; the code resolves the vn hint first and
yields Belkin. -/
theorem C2_counterexample :
    resolveVendor (fun _ => "") (fun _ => "")
        [("001122", "MacBookAir7,2")] [("vn", "Belkin")]
        "00:11:22:AA:BB:CC" none = "Belkin" ∧
    ("Belkin" : String) ≠ "Apple" := by
  decide

/-- C2 (amended): the vendor is resolved by taking the first nonempty
source in the order inline hint, manuf OUI lookup, extra-OUI override
table, existing mDNS vn hint, and only then the Apple-model table (vendor
Apple) — the mDNS vn hint takes priority over the Apple-model table, not
the other way around. -/
theorem C2_vendor_priority (macLookup extraOui : String → String)
    (apple props : List (String × String)) (mac : String) (inline : Option String) :
    resolveVendor macLookup extraOui apple props mac inline =
      firstNonEmptyStr [inline.getD "", macLookup mac, extraOui (macOui mac),
        (lookupProp props "vn").getD "",
        if (lookupProp apple (macOui mac)).isSome then "Apple" else ""] := by
  have happle : ("Apple" : String) ≠ "" := by decide
  cases inline with
  | none =>
    by_cases h0 : macLookup mac = "" <;>
      by_cases h1 : extraOui (macOui mac) = "" <;>
        by_cases h2 : (lookupProp props "vn").getD "" = "" <;>
          by_cases h3 : (lookupProp apple (macOui mac)).isSome <;>
            simp [resolveVendor, firstNonEmptyStr, h0, h1, h2, h3, happle]
  | some v =>
    by_cases hv : v = "" <;>
      by_cases h0 : macLookup mac = "" <;>
        by_cases h1 : extraOui (macOui mac) = "" <;>
          by_cases h2 : (lookupProp props "vn").getD "" = "" <;>
            by_cases h3 : (lookupProp apple (macOui mac)).isSome <;>
              simp [resolveVendor, firstNonEmptyStr, hv, h0, h1, h2, h3, happle]

/-- The service-name table of the claim's example: 80 is http, 443 is
https, all other ports unknown. -/
def exampleServiceTable : Nat → Option String := fun p =>
  if p = 80 then some "http" else if p = 443 then some "https" else none

/-- C3: a port-scan result replaces the matching host's ports field
wholesale — the delivered list, produced by HostPortThread from the raw
discovered ports, is de-duplicated by port number, sorted ascending, each
entry carrying the service-name-table entry for the port or the empty
string; delivery through on_host_ports_multi stores exactly that list on
the first record with the scanned ip, for every prior ports value; raw
ports 443, 80, 80 yield exactly http at 80 and https at 443. -/
theorem C3_port_replacement (getserv svcNames : Nat → Option String)
    (hosts : List Host) (ip : String) (found : List Nat) :
    on_host_ports_multi svcNames hosts ip ((hostPortServices getserv found).map RawPort.entry)
        = setPortsFirst hosts ip (hostPortServices getserv found) ∧
    ((setPortsFirst hosts ip (hostPortServices getserv found)).find? (fun h => h.ip == ip))
        = (hosts.find? (fun h => h.ip == ip)).map
            (fun h => { h with ports := hostPortServices getserv found }) ∧
    ((hostPortServices getserv found).map PortEntry.port).Sorted (· < ·) ∧
    ((hostPortServices getserv found).map PortEntry.port).Nodup ∧
    (∀ e ∈ hostPortServices getserv found,
        e.name = (getserv e.port).getD "" ∧ e.port ∈ found) ∧
    (∀ p ∈ found, p ∈ (hostPortServices getserv found).map PortEntry.port) ∧
    hostPortServices exampleServiceTable [443, 80, 80]
        = [{ port := 80, name := "http" }, { port := 443, name := "https" }] := by
  have hmap : ((hostPortServices getserv found).map RawPort.entry).map
      (normalizePortEntry svcNames) = hostPortServices getserv found := by
    rw [List.map_map]
    exact List.map_id _
  have hsorted : ((hostPortServices getserv found).map PortEntry.port).Sorted (· < ·) := by
    rw [map_port_hostPortServices]
    exact sorted_pySortedSet found
  refine ⟨?_, find_setPortsFirst hosts ip _, hsorted, hsorted.nodup, ?_, ?_, by decide⟩
  · simp only [on_host_ports_multi, hmap]
  · intro e he
    simp only [hostPortServices, List.mem_map] at he
    obtain ⟨p, hp, rfl⟩ := he
    exact ⟨rfl, mem_pySortedSet.mp hp⟩
  · intro p hp
    rw [map_port_hostPortServices]
    exact mem_pySortedSet.mpr hp

/-- C3 witness: the claim's concrete example, obtained from the theorem. -/
theorem C3_port_replacement_witness :
    hostPortServices exampleServiceTable [443, 80, 80]
        = [{ port := 80, name := "http" }, { port := 443, name := "https" }] :=
  (C3_port_replacement exampleServiceTable exampleServiceTable [] "" [443, 80, 80]).2.2.2.2.2.2

/-- C4: when a full mDNS merge is applied, every host record whose ip is
in the result mapping gets its mdns_name, mdns_services and mdns_props set
from the matching fact, and every host record whose ip is absent gets
those three fields reset to empty string, empty list and empty map — so
mdns fields set in a prior cycle never survive a merge whose mapping omits
that host.  The merged table pairs positionally with the old one, ips
unchanged. -/
theorem C4_mdns_full_resync (results : String → Option MdnsFact) (hosts : List Host) :
    (onMdnsDone results hosts).length = hosts.length ∧
    ∀ pr ∈ hosts.zip (onMdnsDone results hosts),
      pr.2.ip = pr.1.ip ∧
      (∀ f, results pr.1.ip = some f →
        pr.2.mdns_name = f.hostname ∧ pr.2.mdns_services = f.services ∧
          pr.2.mdns_props = f.mdns_props) ∧
      (results pr.1.ip = none →
        pr.2.mdns_name = "" ∧ pr.2.mdns_services = [] ∧ pr.2.mdns_props = []) := by
  refine ⟨by simp [onMdnsDone], ?_⟩
  intro pr hpr
  have h2 := zip_map_snd (mergeMdnsHost results) hosts pr hpr
  rw [h2]
  cases hres : results pr.1.ip with
  | none => simp [mergeMdnsHost, hres, clearMdns]
  | some f => simp [mergeMdnsHost, hres, applyMdnsFact]

/-- A host carrying mdns fields from a prior resolution cycle. -/
def staleHost : Host :=
  { ip := "192.168.1.7", mdns_name := "stale.local",
    mdns_services := ["_ssh._tcp.local."], mdns_props := [("vn", "X")] }

/-- C4 witness: a full merge whose mapping has no entry at all resets the
stale host's mdns fields to defaults. -/
theorem C4_mdns_full_resync_witness :
    (clearMdns staleHost).mdns_name = "" ∧ (clearMdns staleHost).mdns_services = [] ∧
      (clearMdns staleHost).mdns_props = [] := by
  have h := (C4_mdns_full_resync (fun _ => none) [staleHost]).2
    (staleHost, clearMdns staleHost) (by decide)
  exact h.2.2 rfl

/-- C5: during a full mDNS merge, the model candidate is the first
nonempty value among the props keys model, md, am, ty, product in that
order; a candidate starting (case-insensitively, via upper) with the
host's vendor name followed by a space has that leading segment removed;
the model field is overwritten exactly when the resulting value is
nonempty and is neither of the placeholders 0 and 0,1,2, and is preserved
otherwise; candidate ACME Printer 100 with vendor Acme stores
Printer 100. -/
theorem C5_model_candidate (h : Host) (f : MdnsFact) :
    ((applyMdnsFact h f).model =
      (let cand := firstNonEmptyStr
          [(lookupProp f.mdns_props "model").getD "", (lookupProp f.mdns_props "md").getD "",
           (lookupProp f.mdns_props "am").getD "", (lookupProp f.mdns_props "ty").getD "",
           (lookupProp f.mdns_props "product").getD ""]
       let vp := pyUpper h.vendor ++ " "
       let v := if pyStartsWith (pyUpper cand) vp then pyDrop cand vp.length else cand
       if v = "" ∨ v = "0" ∨ v = "0,1,2" then h.model else v)) ∧
    (applyMdnsFact { ip := "192.168.1.9", vendor := "Acme" }
        { mdns_props := [("model", "ACME Printer 100")] }).model = "Printer 100" := by
  constructor
  · simp only [applyMdnsFact, pyOrChain_eq_firstNonEmpty, List.map_cons, List.map_nil]
    split_ifs with hstrip hcond hcond2 <;> tauto
  · decide

/-- C6 counterexample: delivering a port-scan result for an ip with no
existing record leaves the table empty — no record with that ip and those
ports exists afterwards, contradicting the claimed create-on-demand. -/
theorem C6_counterexample :
    on_host_ports_multi (fun _ => none) [] "10.0.0.1"
        [RawPort.entry { port := 80, name := "http" }] = [] := by
  rfl

/-- C6 (amended): merging a port-scan result for an ip with no matching
record never fails, but it is a no-op — the table is unchanged and no
record is created, so the delivered result is discarded for unknown
ips. -/
theorem C6_unknown_ip_noop (svcNames : Nat → Option String) (hosts : List Host)
    (ip : String) (raw : List RawPort) (habs : ∀ h ∈ hosts, h.ip ≠ ip) :
    on_host_ports_multi svcNames hosts ip raw = hosts := by
  unfold on_host_ports_multi
  exact setPortsFirst_absent _ _ _ habs

/-- C6 witness: a table holding only 192.168.1.6 is untouched by a ports
result for 10.0.0.1. -/
theorem C6_unknown_ip_noop_witness :
    on_host_ports_multi (fun _ => none) [passTwoHostNew] "10.0.0.1" [RawPort.num 80]
      = [passTwoHostNew] :=
  C6_unknown_ip_noop (fun _ => none) [passTwoHostNew] "10.0.0.1" [RawPort.num 80] (by decide)

/-- C7: a port-scan request for an ip whose entry is in the in-flight map
is a no-op (map unchanged, no subprocess launched); when the task
finishes — the outcome, success or error, is not consulted — the ip's
entry is removed, so a subsequent request for that ip is admitted. -/
theorem C7_single_flight (threads : String → Option Nat) (ip : String) (tid tid2 t0 : Nat)
    (outcome : Except String (List PortEntry))
    (hip : ip ≠ "") (hin : threads ip = some t0) :
    start_host_port_scan threads ip tid = (threads, false) ∧
    on_thread_finished outcome threads ip ip = none ∧
    (start_host_port_scan (on_thread_finished outcome threads ip) ip tid2).2 = true := by
  have hs : (threads ip).isSome := by rw [hin]; rfl
  refine ⟨by simp [start_host_port_scan, hs], ?_, ?_⟩
  · simp [on_thread_finished, hip, hs]
  · simp [on_thread_finished, hip, hs, start_host_port_scan]

/-- An in-flight map holding one running port-scan task for
192.168.1.5. -/
def inflightExample : String → Option Nat := fun k =>
  if k = "192.168.1.5" then some 1 else none

/-- C7 witness: the single-flight gate and the release-on-finish at the
concrete in-flight map, with the finished task reporting an error. -/
theorem C7_single_flight_witness :
    start_host_port_scan inflightExample "192.168.1.5" 2 = (inflightExample, false) ∧
    on_thread_finished (Except.error "Port scan failed for 192.168.1.5: timeout")
        inflightExample "192.168.1.5" "192.168.1.5" = none ∧
    (start_host_port_scan
        (on_thread_finished (Except.error "Port scan failed for 192.168.1.5: timeout")
          inflightExample "192.168.1.5") "192.168.1.5" 3).2 = true :=
  C7_single_flight inflightExample "192.168.1.5" 2 3 1
    (Except.error "Port scan failed for 192.168.1.5: timeout") (by decide) (by decide)

/-- C8 counterexample: the byte 255 fails UTF-8 decoding; the resolution
engine (mdns.py, errors ignored) stores the empty string for it, not the
hex-string representation 0xff, and distinct undecodable inputs collapse
to the same stored value — the entry is lossily truncated.  A TXT item
with key k and value byte 255 is stored as k mapped to the empty
string. -/
theorem C8_counterexample :
    String.mk (utf8DecodeIgnore [255]) = "" ∧
    String.mk (utf8DecodeIgnore [255]) ≠ hexFallback [255] ∧
    utf8DecodeIgnore [255] = utf8DecodeIgnore [254] ∧
    lookupProp (buildProps [(some [107], some [255])] []) "k" = some "" := by
  decide

/-- C8 (amended): for every TXT property whose key or value bytes fail
UTF-8 decoding, the resolution engine recovers locally by storing the
best-effort UTF-8 decoding with the undecodable bytes dropped (errors
ignored), not a hex-string representation; no error is raised and the
entry is not dropped — its decoded key is present in the built props map,
and a lone item's stored value is exactly the ignore-decoding of its value
bytes. -/
theorem C8_txt_decode_recovery (items : List (Option (List Nat) × Option (List Nat)))
    (kb vb : List Nat) (hmem : (some kb, some vb) ∈ items) :
    (lookupProp (buildProps items []) (String.mk (utf8DecodeIgnore kb))).isSome ∧
    lookupProp (buildProps [(some kb, some vb)] []) (String.mk (utf8DecodeIgnore kb))
      = some (String.mk (utf8DecodeIgnore vb)) := by
  refine ⟨buildProps_mem_isSome items kb vb [] hmem, ?_⟩
  show lookupProp (dictSet [] (String.mk (utf8DecodeIgnore kb)) (String.mk (utf8DecodeIgnore vb)))
      (String.mk (utf8DecodeIgnore kb)) = _
  exact lookup_dictSet_self [] _ _

/-- C8 witness: the TXT item whose key bytes contain the undecodable byte
255 inside ASCII text is kept, keyed by the lossy decoding hi. -/
theorem C8_txt_decode_recovery_witness :
    (lookupProp (buildProps [(some [104, 255, 105], some [255])] [])
        (String.mk (utf8DecodeIgnore [104, 255, 105]))).isSome ∧
    lookupProp (buildProps [(some [104, 255, 105], some [255])] [])
        (String.mk (utf8DecodeIgnore [104, 255, 105]))
      = some (String.mk (utf8DecodeIgnore [255])) :=
  C8_txt_decode_recovery [(some [104, 255, 105], some [255])] [104, 255, 105] [255]
    (by decide)

/-- C9 counterexample: the quick-scan path launches its mDNS cycle from
_on_discovery_finished with timeout 2.0, and the deep-scan path launches
from _start_mdns in advanced mode, also timeout 2.0 — the deep-scan
timeout is not strictly longer. -/
theorem C9_counterexample : ¬ quick_scan_mdns_timeout < deep_scan_mdns_timeout := by
  norm_num [quick_scan_mdns_timeout, deep_scan_mdns_timeout, start_mdns_timeout]

/-- C9 (amended): the mDNS cycle after the last deep-scan pass uses a
phase timeout at least as long as — in fact equal to — the quick-scan
cycle's: both are 2.0 seconds (only the unused non-advanced branch of
_start_mdns carries the shorter 1.0). -/
theorem C9_mdns_timeouts :
    quick_scan_mdns_timeout ≤ deep_scan_mdns_timeout ∧
    deep_scan_mdns_timeout = quick_scan_mdns_timeout ∧
    quick_scan_mdns_timeout = 2 ∧
    start_mdns_timeout false < start_mdns_timeout true := by
  norm_num [quick_scan_mdns_timeout, deep_scan_mdns_timeout, start_mdns_timeout]

/-- C10: a MAC Address line arriving before any host report line has been
processed in the pass is ignored entirely — the scan state is unchanged
(no record created or modified) and no event is emitted — because the
update of the most recently discovered host is guarded by the hosts list
being nonempty. -/
theorem C10_mac_line_before_hosts_ignored (rdns macLookup extraOui : String → String)
    (apple : List (String × String)) (st : ScanState) (line : String)
    (hempty : st.hosts = [])
    (hdisc : parse_discovery_line line = none)
    (hmac : (parse_mac_line line).isSome) :
    scanStep rdns macLookup extraOui apple st line = (st, []) := by
  obtain ⟨m, hm⟩ := Option.isSome_iff_exists.mp hmac
  obtain ⟨mac, inline⟩ := m
  simp [scanStep, hdisc, hm, hempty]

/-- A subprocess line that matches the MAC regex but not the discovery
regex. -/
def macOnlyLine : String := "MAC Address: AA:BB:CC:DD:EE:FF (Acme Corp)"

/-- C10 witness: the fresh scan state is untouched by a leading MAC
line. -/
theorem C10_mac_line_before_hosts_ignored_witness :
    scanStep (fun _ => "") (fun _ => "") (fun _ => "") []
        { hosts := [], seen_ips := [] } macOnlyLine
      = ({ hosts := [], seen_ips := [] }, []) :=
  C10_mac_line_before_hosts_ignored (fun _ => "") (fun _ => "") (fun _ => "") []
    { hosts := [], seen_ips := [] } macOnlyLine rfl (by decide) (by decide)

end INetScan
